import Mathlib

/-!
Verification of the Category workflow of the inventory application.

The embedding models the Mongoose-backed stores as lists of records, the
express-validator chains as pure field checks, and each Express request
handler in `categoryController` as a function from the store state and the
request data to the new store state together with the list of responses the
handler emits (`res.render`, `res.redirect`, `next(err)`); a handler that
emits more than one response models code that writes twice to `res`.
-/

set_option maxRecDepth 4000

namespace Inventory

/-- A stored Category record (models/category.js): `_id`, `name`,
`description`. -/
structure Category where
  id : Nat
  name : String
  description : String
deriving Repr, DecidableEq

/-- A stored Item record (models/item.js): `_id`, `name`, `description`,
`price`, `stock` and the `category` reference (a Category id). -/
structure Item where
  id : Nat
  name : String
  description : String
  price : Int
  stock : Nat
  category : Nat
deriving Repr, DecidableEq

/-- The document store: all Category records, all Item records, and the next
system-generated identifier. -/
structure Store where
  categories : List Category
  items : List Item
  nextId : Nat
deriving Repr, DecidableEq

/-- The responses a handler can emit: `res.redirect(url)`,
the `res.render` calls of the Category controller (one constructor per
view and payload shape), `next(err)` with an HTTP status marker, and a
store-level failure propagated by `asyncHandler` (e.g. a Mongoose schema
validation rejection of `save()`). -/
inductive Response where
  | redirect (url : String)
  | renderIndex (itemCount categoryCount : Nat)
  | renderCategoryList (categories : List Category)
  | renderCategoryDetail (category : Category) (categoryItems : List Item)
  | renderCategoryForm (title : String) (name : String) (desc : String)
      (idInForm : Option Nat) (errors : List String)
  | renderCategoryDelete (category : Option Category)
      (categoryItems : List Item)
  | errorNext (status : Nat) (msg : String)
  | storeError (msg : String)
deriving Repr, DecidableEq

/-- The whitespace characters stripped by the `trim()` sanitizer
(space, tab, newline, carriage return, form feed, vertical tab). -/
def isTrimWhitespace (c : Char) : Bool :=
  c.toNat = 32 || c.toNat = 9 || c.toNat = 10 ||
  c.toNat = 13 || c.toNat = 12 || c.toNat = 11

/-- The `trim()` sanitizer of express-validator: strips leading and trailing
whitespace. -/
def trimString (s : String) : String :=
  String.mk (((s.data.dropWhile isTrimWhitespace).reverse.dropWhile
      isTrimWhitespace).reverse)

/-- The per-character substitution of the `escape()` sanitizer of
express-validator (validator.js `escape`): HTML-unsafe characters
`&“’<>/\` and the backtick are replaced by entities. -/
def escapeChar (c : Char) : String :=
  if c.toNat = 38 then "&amp;"
  else if c.toNat = 34 then "&quot;"
  else if c.toNat = 39 then "&#x27;"
  else if c.toNat = 60 then "&lt;"
  else if c.toNat = 62 then "&gt;"
  else if c.toNat = 47 then "&#x2F;"
  else if c.toNat = 92 then "&#x5C;"
  else if c.toNat = 96 then "&#96;"
  else String.singleton c

/-- The `escape()` sanitizer applied to a whole string. -/
def escapeString (s : String) : String :=
  String.join (s.data.map escapeChar)

/-- Result of one `body(field, msg).trim().isLength(min 1).escape()` chain:
the sanitized value left in `req.body` and the recorded error, if any.
`isLength` checks the value after `trim()` and before `escape()`. -/
structure FieldCheck where
  value : String
  error : Option String
deriving Repr, DecidableEq

/-- Run one validator chain on a raw field value. -/
def runFieldChain (raw msg : String) : FieldCheck :=
  let t := trimString raw
  { value := escapeString t
    error := if 1 ≤ t.length then none else some msg }

/-- Error message of the `name` validator in `category_create_post` and
`category_update_post`. -/
def nameRequiredMsg : String := "Category name required"

/-- Error message of the `description` validator. -/
def descRequiredMsg : String := "Category description required"

/-- `validationResult(req).array()` for the two Category validators, in the
order the validators run (name first, then description); both chains always
run, so errors from every failing field are collected. -/
def categoryValidationErrors (rawName rawDesc : String) : List String :=
  (runFieldChain rawName nameRequiredMsg).error.toList ++
  (runFieldChain rawDesc descRequiredMsg).error.toList

/-- `Category.findById(id)`: the record with the given id, if present. -/
def findCategoryById (st : Store) (id : Nat) : Option Category :=
  st.categories.find? (fun c => c.id == id)

/-- `Item.find({ category: id })`: all Items whose `category` field equals
the given id. -/
def itemsInCategory (st : Store) (id : Nat) : List Item :=
  st.items.filter (fun it => it.category == id)

/-- Case folding used to model the `collation({ locale: en, strength: 2 })`
(case-insensitive) comparison of `findOne` in `category_create_post`. -/
def foldCase (s : String) : String := String.mk (s.data.map Char.toLower)

/-- `Category.findOne({ name }).collation(...)`: first record whose name
equals the given name under case-insensitive comparison. -/
def findCategoryByNameCI (st : Store) (name : String) : Option Category :=
  st.categories.find? (fun c => foldCase c.name == foldCase name)

/-- The `url` virtual of CategorySchema: `/category/<id>`. -/
def categoryUrl (id : Nat) : String := "/category/" ++ toString id

/-- The CategorySchema constraints checked by Mongoose when `save()` runs:
both fields `required` (non-empty) with `maxLength: 100`. -/
def schemaValid (c : Category) : Bool :=
  (c.name != "") && (decide (c.name.length ≤ 100)) &&
  (c.description != "") && (decide (c.description.length ≤ 100))

/-- `exports.index`: count Items and Categories (both reads of the same
store state, issued concurrently) and render the home page. -/
def index (st : Store) : Store × List Response :=
  (st, [Response.renderIndex st.items.length st.categories.length])

/-- `exports.category_list`: render the list of all Categories. -/
def category_list (st : Store) : Store × List Response :=
  (st, [Response.renderCategoryList st.categories])

/-- `exports.category_detail`: fetch the Category and its Items in
parallel; if the Category is absent pass a 404 error to `next`, else render
the detail view. The Item query projects name, description, price, stock;
the projection is modelled as returning the records. -/
def category_detail (st : Store) (id : Nat) : Store × List Response :=
  match findCategoryById st id with
  | none => (st, [Response.errorNext 404 "Category not found"])
  | some c =>
      (st, [Response.renderCategoryDetail c (itemsInCategory st id)])

/-- `exports.category_create_post`: run both validator chains; on any
validation error re-render the form with the sanitized values and all
collected messages and persist nothing; otherwise look the sanitized name
up case-insensitively — if a record exists redirect to its detail URL
without saving, else `save()` the new record (which applies the schema
constraints) and redirect to its detail URL. -/
def category_create_post (st : Store) (rawName rawDesc : String) :
    Store × List Response :=
  let fn := runFieldChain rawName nameRequiredMsg
  let fd := runFieldChain rawDesc descRequiredMsg
  let errors := fn.error.toList ++ fd.error.toList
  if errors.isEmpty then
    match findCategoryByNameCI st fn.value with
    | some existing => (st, [Response.redirect (categoryUrl existing.id)])
    | none =>
        let c : Category := ⟨st.nextId, fn.value, fd.value⟩
        if schemaValid c then
          ({ st with categories := st.categories ++ [c],
                     nextId := st.nextId + 1 },
           [Response.redirect (categoryUrl c.id)])
        else
          (st, [Response.storeError "ValidationError"])
  else
    (st, [Response.renderCategoryForm "Create Category" fn.value fd.value
            none errors])

/-- `exports.category_delete_get`: fetch Category and dependent Items in
parallel; when the Category is absent the code calls
`res.redirect('/categories')` but does not return, so it then also renders
the confirmation view — both responses are emitted, in that order. -/
def category_delete_get (st : Store) (id : Nat) : Store × List Response :=
  let category := findCategoryById st id
  let categoryItems := itemsInCategory st id
  let first :=
    if category = none then [Response.redirect "/categories"] else []
  (st, first ++ [Response.renderCategoryDelete category categoryItems])

/-- `exports.category_delete_post`: re-fetch Category and dependents; if
any dependent Items exist render the confirmation view again (and return);
otherwise `findByIdAndDelete` the record and redirect to the listing. -/
def category_delete_post (st : Store) (id : Nat) : Store × List Response :=
  let category := findCategoryById st id
  let categoryItems := itemsInCategory st id
  if categoryItems.length > 0 then
    (st, [Response.renderCategoryDelete category categoryItems])
  else
    ({ st with categories := st.categories.filter (fun c => c.id != id) },
     [Response.redirect "/categories"])

/-- `exports.category_update_post`: run both validator chains; on any
error re-render the form (carrying the target id) and write nothing;
otherwise `findByIdAndUpdate(id, category)` — the update document carries
`_id: req.params.id`, so the stored identifier is never reassigned, and an
absent id matches no document (no upsert) — then redirect to
`/category/<id>`. -/
def category_update_post (st : Store) (id : Nat) (rawName rawDesc : String) :
    Store × List Response :=
  let fn := runFieldChain rawName nameRequiredMsg
  let fd := runFieldChain rawDesc descRequiredMsg
  let errors := fn.error.toList ++ fd.error.toList
  if errors.isEmpty then
    ({ st with categories := st.categories.map (fun c =>
        if c.id == id then
          { c with name := fn.value, description := fd.value }
        else c) },
     [Response.redirect (categoryUrl id)])
  else
    (st, [Response.renderCategoryForm "Update Category" fn.value fd.value
            (some id) errors])

/-- Sample data: a stored Category used in concrete instantiations. -/
def sampleCategory : Category := ⟨1, "Tools", "Hand tools"⟩

/-- Sample data: an Item that references `sampleCategory`. -/
def sampleItem : Item := ⟨5, "Hammer", "Steel hammer", 10, 3, 1⟩

/-- Sample data: a store holding `sampleCategory` and `sampleItem`. -/
def sampleStore : Store := ⟨[sampleCategory], [sampleItem], 6⟩

/-- A name whose trimmed length (101) exceeds the schema maximum of 100. -/
def overMaxName : String := String.mk (List.replicate 101 'a')

/-- Searching a concatenation when the first part holds no match searches
the second part. -/
theorem find?_append_of_none {α : Type} (p : α → Bool) (l m : List α)
    (h : l.find? p = none) : (l ++ m).find? p = m.find? p := by
  induction l with
  | nil => rfl
  | cons a t ih =>
      by_cases hp : p a
      · simp [List.find?_cons, hp] at h
      · rw [List.find?_cons_of_neg _ hp] at h
        rw [List.cons_append, List.find?_cons_of_neg _ hp]
        exact ih h

/-- The two validator error messages are distinct strings. -/
theorem nameMsg_ne_descMsg : nameRequiredMsg ≠ descRequiredMsg := by decide

/-- Validation succeeds exactly when both trimmed fields are non-empty. -/
theorem categoryValidationErrors_eq_nil_iff (n d : String) :
    categoryValidationErrors n d = [] ↔
      1 ≤ (trimString n).length ∧ 1 ≤ (trimString d).length := by
  by_cases h1 : 1 ≤ (trimString n).length <;>
    by_cases h2 : 1 ≤ (trimString d).length <;>
      simp [categoryValidationErrors, runFieldChain, h1, h2]

/-- On a validation failure, `category_create_post` renders the create form
with the sanitized values and all collected error messages, without
touching the store. -/
theorem category_create_post_invalid (st : Store) (n d : String)
    (h : categoryValidationErrors n d ≠ []) :
    category_create_post st n d =
      (st, [Response.renderCategoryForm "Create Category"
              (escapeString (trimString n)) (escapeString (trimString d))
              none (categoryValidationErrors n d)]) := by
  by_cases h1 : 1 ≤ (trimString n).length <;>
    by_cases h2 : 1 ≤ (trimString d).length
  · exact absurd ((categoryValidationErrors_eq_nil_iff n d).mpr ⟨h1, h2⟩) h
  all_goals
    simp [category_create_post, categoryValidationErrors, runFieldChain,
      h1, h2]

/-- On a validation failure, `category_update_post` renders the update form
with the sanitized values, the target id and all collected error messages,
without touching the store. -/
theorem category_update_post_invalid (st : Store) (id : Nat) (n d : String)
    (h : categoryValidationErrors n d ≠ []) :
    category_update_post st id n d =
      (st, [Response.renderCategoryForm "Update Category"
              (escapeString (trimString n)) (escapeString (trimString d))
              (some id) (categoryValidationErrors n d)]) := by
  by_cases h1 : 1 ≤ (trimString n).length <;>
    by_cases h2 : 1 ≤ (trimString d).length
  · exact absurd ((categoryValidationErrors_eq_nil_iff n d).mpr ⟨h1, h2⟩) h
  all_goals
    simp [category_update_post, categoryValidationErrors, runFieldChain,
      h1, h2]

/-- With valid input and a case-insensitive name match, the create handler
persists nothing and redirects to the matched record. -/
theorem category_create_post_valid_found (st : Store) (n d : String)
    (c : Category)
    (hn : 1 ≤ (trimString n).length) (hd : 1 ≤ (trimString d).length)
    (hc : findCategoryByNameCI st (escapeString (trimString n)) = some c) :
    category_create_post st n d = (st, [Response.redirect (categoryUrl c.id)]) := by
  simp [category_create_post, runFieldChain, hn, hd, hc]

/-- With valid input, no case-insensitive name match, and a schema-valid
record, the create handler appends exactly one new record and redirects to
its detail URL. -/
theorem category_create_post_valid_new (st : Store) (n d : String)
    (hn : 1 ≤ (trimString n).length) (hd : 1 ≤ (trimString d).length)
    (hnone : findCategoryByNameCI st (escapeString (trimString n)) = none)
    (hschema : schemaValid ⟨st.nextId, escapeString (trimString n),
        escapeString (trimString d)⟩ = true) :
    category_create_post st n d =
      ({ st with
          categories := st.categories ++
            [⟨st.nextId, escapeString (trimString n),
              escapeString (trimString d)⟩],
          nextId := st.nextId + 1 },
       [Response.redirect (categoryUrl st.nextId)]) := by
  simp [category_create_post, runFieldChain, hn, hd, hnone, hschema]

/-- With valid input, no case-insensitive name match, but a record the
schema rejects, the create handler persists nothing and the `save()`
rejection propagates as a store failure. -/
theorem category_create_post_schema_reject (st : Store) (n d : String)
    (hn : 1 ≤ (trimString n).length) (hd : 1 ≤ (trimString d).length)
    (hnone : findCategoryByNameCI st (escapeString (trimString n)) = none)
    (hschema : schemaValid ⟨st.nextId, escapeString (trimString n),
        escapeString (trimString d)⟩ = false) :
    category_create_post st n d = (st, [Response.storeError "ValidationError"]) := by
  simp [category_create_post, runFieldChain, hn, hd, hnone, hschema]

/-- With valid input, the update handler rewrites the record carrying the
requested id in place and redirects to `/category/<id>`. -/
theorem category_update_post_valid (st : Store) (id : Nat) (n d : String)
    (hn : 1 ≤ (trimString n).length) (hd : 1 ≤ (trimString d).length) :
    category_update_post st id n d =
      ({ st with categories := st.categories.map (fun c =>
          if c.id == id then
            { c with name := escapeString (trimString n),
                     description := escapeString (trimString d) }
          else c) },
       [Response.redirect (categoryUrl id)]) := by
  simp [category_update_post, runFieldChain, hn, hd]

/-- C8: the home summary handler returns the total count of Item records
and the total count of Category records in the store and performs no write
to either store (the resulting state is the input state). -/
theorem index_counts_and_is_readonly (st : Store) :
    index st = (st, [Response.renderIndex st.items.length st.categories.length]) :=
  rfl

/-- C5 (code evidence): on a delete-confirmation request for an id absent
from the store, the handler does not stop after `res.redirect`: it emits
the redirect AND then also renders the confirmation view with a null
Category, because the source lacks a `return` after the redirect. The
redirect is therefore not the sole response, contrary to the claim. -/
theorem category_delete_get_absent_two_responses :
    category_delete_get ⟨[], [], 0⟩ 7 =
      (⟨[], [], 0⟩,
       [Response.redirect "/categories",
        Response.renderCategoryDelete none []]) := by decide

/-- C4 (counterexample): a name of 101 characters violates the declared
maximum of 100, yet validation accepts it (no error collected); the create
handler then attempts the save and the input fails in the store (the
schema rejects it) instead of yielding a ValidationError. -/
theorem category_validation_accepts_over_max :
    (trimString overMaxName).length = 101
    ∧ categoryValidationErrors overMaxName "d" = []
    ∧ category_create_post ⟨[], [], 0⟩ overMaxName "d" =
        (⟨[], [], 0⟩, [Response.storeError "ValidationError"]) := by decide

/-- C4 (amended): handler validation accepts each required field iff its
trimmed length is at least 1 — the maximum of 100 is not checked by
validation. An input violating the minimum yields a ValidationError form
response and nothing is persisted; an input passing validation whose
sanitized fields the schema rejects (e.g. over 100 characters, with no
duplicate name present) is not persisted either, but fails in the store at
save time. -/
theorem category_validation_min_bound_only (n d : String) :
    (categoryValidationErrors n d = [] ↔
       1 ≤ (trimString n).length ∧ 1 ≤ (trimString d).length)
    ∧ (∀ st : Store, categoryValidationErrors n d ≠ [] →
        category_create_post st n d =
          (st, [Response.renderCategoryForm "Create Category"
                  (escapeString (trimString n)) (escapeString (trimString d))
                  none (categoryValidationErrors n d)]))
    ∧ (∀ st : Store, 1 ≤ (trimString n).length → 1 ≤ (trimString d).length →
        findCategoryByNameCI st (escapeString (trimString n)) = none →
        schemaValid ⟨st.nextId, escapeString (trimString n),
            escapeString (trimString d)⟩ = false →
        category_create_post st n d =
          (st, [Response.storeError "ValidationError"])) := by
  refine ⟨categoryValidationErrors_eq_nil_iff n d,
    fun st h => category_create_post_invalid st n d h,
    fun st hn hd hnone hschema =>
      category_create_post_schema_reject st n d hn hd hnone hschema⟩

/-- C4 (amended, witness): instantiating the amended theorem at the empty
store with an empty name and at the over-maximum name. -/
theorem category_validation_min_bound_only_witness :
    category_create_post ⟨[], [], 0⟩ "" "ok" =
      (⟨[], [], 0⟩, [Response.renderCategoryForm "Create Category" "" "ok"
          none [nameRequiredMsg]])
    ∧ category_create_post ⟨[], [], 0⟩ overMaxName "d" =
        (⟨[], [], 0⟩, [Response.storeError "ValidationError"]) := by
  refine ⟨?_, ?_⟩
  · have h := (category_validation_min_bound_only "" "ok").2.1 ⟨[], [], 0⟩
      (by decide)
    exact h.trans (by decide)
  · have h := (category_validation_min_bound_only overMaxName "d").2.2
      ⟨[], [], 0⟩ (by decide) (by decide) (by decide) (by decide)
    exact h

/-- C6: on any failed Category create or update submission, the store is
untouched and the form is redisplayed with the sanitized attempted values
and the full list of collected error messages; the name message is present
iff the trimmed name is empty, and the description message is present iff
the trimmed description is empty (so every failing field's error is
collected). -/
theorem category_form_errors_collected (st : Store) (id : Nat) (n d : String)
    (h : categoryValidationErrors n d ≠ []) :
    category_create_post st n d =
      (st, [Response.renderCategoryForm "Create Category"
              (escapeString (trimString n)) (escapeString (trimString d))
              none (categoryValidationErrors n d)])
    ∧ category_update_post st id n d =
      (st, [Response.renderCategoryForm "Update Category"
              (escapeString (trimString n)) (escapeString (trimString d))
              (some id) (categoryValidationErrors n d)])
    ∧ (nameRequiredMsg ∈ categoryValidationErrors n d ↔
        (trimString n).length = 0)
    ∧ (descRequiredMsg ∈ categoryValidationErrors n d ↔
        (trimString d).length = 0) := by
  refine ⟨category_create_post_invalid st n d h,
    category_update_post_invalid st id n d h, ?_, ?_⟩ <;>
  · by_cases h1 : 1 ≤ (trimString n).length <;>
      by_cases h2 : 1 ≤ (trimString d).length <;>
        simp [categoryValidationErrors, runFieldChain, h1, h2,
          nameMsg_ne_descMsg, nameMsg_ne_descMsg.symm] <;>
        omega

/-- C6 (witness): a whitespace-only name and an empty description produce
both error messages, in validator order, with nothing persisted. -/
theorem category_form_errors_collected_witness :
    category_create_post ⟨[], [], 0⟩ " " "" =
      (⟨[], [], 0⟩, [Response.renderCategoryForm "Create Category" "" ""
          none [nameRequiredMsg, descRequiredMsg]])
    ∧ nameRequiredMsg ∈ categoryValidationErrors " " "" := by
  have h := category_form_errors_collected ⟨[], [], 0⟩ 0 " " "" (by decide)
  exact ⟨h.1.trans (by decide), h.2.2.1.mpr (by decide)⟩

/-- Rewriting name and description in place never changes the stored
identifiers. -/
theorem map_update_ids (l : List Category) (id : Nat) (n d : String) :
    (l.map (fun c =>
        if c.id == id then { c with name := n, description := d } else c)).map
      Category.id = l.map Category.id := by
  rw [List.map_map]
  refine List.map_congr_left (fun c _ => ?_)
  by_cases h : c.id == id <;> simp [Function.comp, h]

/-- When no record carries the requested id, the in-place rewrite is the
identity on the category list. -/
theorem map_update_absent (l : List Category) (id : Nat) (n d : String)
    (h : ∀ c ∈ l, ¬ c.id = id) :
    l.map (fun c =>
        if c.id == id then { c with name := n, description := d } else c) = l := by
  induction l with
  | nil => rfl
  | cons c t ih =>
      have hc : (c.id == id) = false := by
        simpa using h c (by simp)
      simp only [List.map_cons, hc, Bool.false_eq_true, if_false]
      rw [ih (fun x hx => h x (by simp [hx]))]

/-- C2: executing a Category delete while dependent Items exist leaves the
store exactly as it was (so the Category record, if present, still exists
unchanged) and responds with the confirmation view populated with exactly
the dependent Items currently in the store; with zero dependents the
Category is removed, all Items and all other Categories are kept, and the
caller is redirected to the listing. -/
theorem category_delete_post_blocked_or_deletes (st : Store) (id : Nat) :
    (itemsInCategory st id ≠ [] →
       category_delete_post st id =
         (st, [Response.renderCategoryDelete (findCategoryById st id)
                 (itemsInCategory st id)]))
    ∧ (itemsInCategory st id = [] →
       (category_delete_post st id).2 = [Response.redirect "/categories"]
       ∧ (category_delete_post st id).1.items = st.items
       ∧ findCategoryById (category_delete_post st id).1 id = none
       ∧ ∀ c ∈ st.categories, ¬ c.id = id →
           c ∈ (category_delete_post st id).1.categories) := by
  constructor
  · intro h
    have hlen : 0 < (itemsInCategory st id).length := List.length_pos.mpr h
    simp [category_delete_post, hlen]
  · intro h
    have hlen : ¬ 0 < (itemsInCategory st id).length := by simp [h]
    refine ⟨by simp [category_delete_post, hlen], by simp [category_delete_post, hlen], ?_, ?_⟩
    · simp only [category_delete_post, hlen, if_false]
      apply List.find?_eq_none.mpr
      intro c hc
      have := (List.mem_filter.mp hc).2
      simpa using this
    · intro c hc hne
      simp only [category_delete_post, hlen, if_false]
      exact List.mem_filter.mpr ⟨hc, by simpa using hne⟩

/-- C2 (witness): with the sample store (one dependent Item) deletion of
Category 1 is blocked and the store unchanged; with the Item removed, the
Category is no longer found after deletion. -/
theorem category_delete_post_blocked_or_deletes_witness :
    category_delete_post sampleStore 1 =
      (sampleStore,
       [Response.renderCategoryDelete (some sampleCategory) [sampleItem]])
    ∧ findCategoryById (category_delete_post ⟨[sampleCategory], [], 6⟩ 1).1 1 =
        none := by
  have h1 := (category_delete_post_blocked_or_deletes sampleStore 1).1
    (by decide)
  have h2 := (category_delete_post_blocked_or_deletes
    ⟨[sampleCategory], [], 6⟩ 1).2 (by decide)
  exact ⟨h1.trans (by decide), h2.2.2.1⟩

/-- C3: a valid Category update never reassigns identifiers — the list of
stored ids is unchanged — and every record that carried the requested id is
overwritten in place with the sanitized name and description while keeping
that id; the handler redirects to the detail URL of the unchanged id. -/
theorem category_update_post_preserves_id (st : Store) (id : Nat)
    (n d : String)
    (hn : 1 ≤ (trimString n).length) (hd : 1 ≤ (trimString d).length) :
    ((category_update_post st id n d).1.categories.map Category.id
       = st.categories.map Category.id)
    ∧ (∀ c ∈ st.categories, c.id = id →
        (⟨id, escapeString (trimString n), escapeString (trimString d)⟩ :
            Category) ∈ (category_update_post st id n d).1.categories)
    ∧ (category_update_post st id n d).2 =
        [Response.redirect (categoryUrl id)] := by
  rw [category_update_post_valid st id n d hn hd]
  refine ⟨map_update_ids _ _ _ _, ?_, rfl⟩
  intro c hc hcid
  have himg := List.mem_map_of_mem (f := fun c =>
    if c.id == id then
      { c with name := escapeString (trimString n),
               description := escapeString (trimString d) }
    else c) hc
  simpa [hcid] using himg

/-- C3 (witness): updating the sample Category keeps id 1 and stores the
new field values at id 1. -/
theorem category_update_post_preserves_id_witness :
    (category_update_post sampleStore 1 "Gear" "Camping gear").1.categories.map
      Category.id = [1]
    ∧ (⟨1, "Gear", "Camping gear"⟩ : Category) ∈
        (category_update_post sampleStore 1 "Gear" "Camping gear").1.categories := by
  have h := category_update_post_preserves_id sampleStore 1 "Gear"
    "Camping gear" (by decide) (by decide)
  have hmem := h.2.1 sampleCategory (by decide) (by decide)
  have he : (⟨1, escapeString (trimString "Gear"),
      escapeString (trimString "Camping gear")⟩ : Category) =
      ⟨1, "Gear", "Camping gear"⟩ := by decide
  exact ⟨h.1.trans (by decide), he ▸ hmem⟩

/-- C7: the Category detail handler passes a 404 NotFound error to the
error chain exactly when no Category with the requested id exists; when
one exists the handler renders the detail view with that Category and all
Items whose category field equals the requested id, writing nothing. -/
theorem category_detail_notfound_iff (st : Store) (id : Nat) :
    ((category_detail st id).2 = [Response.errorNext 404 "Category not found"]
       ↔ findCategoryById st id = none)
    ∧ (∀ c, findCategoryById st id = some c →
        category_detail st id =
          (st, [Response.renderCategoryDetail c (itemsInCategory st id)])) := by
  cases h : findCategoryById st id <;> simp [category_detail, h]

/-- C7 (witness): detail of an absent id yields the 404 error; detail of
the sample Category renders it together with its dependent Item. -/
theorem category_detail_notfound_iff_witness :
    (category_detail ⟨[], [], 0⟩ 3).2 =
      [Response.errorNext 404 "Category not found"]
    ∧ category_detail sampleStore 1 =
        (sampleStore,
         [Response.renderCategoryDetail sampleCategory [sampleItem]]) := by
  have h1 := (category_detail_notfound_iff ⟨[], [], 0⟩ 3).1.mpr (by decide)
  have h2 := (category_detail_notfound_iff sampleStore 1).2 sampleCategory
    (by decide)
  exact ⟨h1, h2.trans (by decide)⟩

/-- C9: a valid update whose path id matches no stored Category writes
nothing — the store is returned unchanged — and still responds with the
success redirect to the detail URL of the requested id; no NotFound
condition is raised. -/
theorem category_update_post_absent_id (st : Store) (id : Nat) (n d : String)
    (hn : 1 ≤ (trimString n).length) (hd : 1 ≤ (trimString d).length)
    (habs : findCategoryById st id = none) :
    category_update_post st id n d =
      (st, [Response.redirect (categoryUrl id)]) := by
  rw [category_update_post_valid st id n d hn hd]
  have h : ∀ c ∈ st.categories, ¬ c.id = id := fun c hc => by
    simpa using List.find?_eq_none.mp habs c hc
  rw [map_update_absent _ _ _ _ h]

/-- C9 (witness): updating absent id 9 in the sample store changes nothing
and redirects to `/category/9`. -/
theorem category_update_post_absent_id_witness :
    category_update_post sampleStore 9 "New" "Desc" =
      (sampleStore, [Response.redirect "/category/9"]) := by
  have h := category_update_post_absent_id sampleStore 9 "New" "Desc"
    (by decide) (by decide) (by decide)
  exact h.trans (by decide)

/-- C10: executing a Category delete for an id matching no stored Category,
with no Item referencing that id, completes with the redirect to the
listing and leaves the store unchanged; no NotFound condition is raised. -/
theorem category_delete_post_absent_id (st : Store) (id : Nat)
    (habs : findCategoryById st id = none)
    (hitems : itemsInCategory st id = []) :
    category_delete_post st id = (st, [Response.redirect "/categories"]) := by
  have hlen : ¬ 0 < (itemsInCategory st id).length := by simp [hitems]
  have h : ∀ c ∈ st.categories, (c.id != id) = true := fun c hc => by
    simpa using List.find?_eq_none.mp habs c hc
  simp only [category_delete_post, hlen, if_false]
  rw [List.filter_eq_self.mpr h]

/-- C10 (witness): deleting absent id 9 from the sample store changes
nothing and redirects to the listing. -/
theorem category_delete_post_absent_id_witness :
    category_delete_post sampleStore 9 =
      (sampleStore, [Response.redirect "/categories"]) :=
  category_delete_post_absent_id sampleStore 9 (by decide) (by decide)

/-- C1: for valid create input (and a record within schema bounds), when a
stored Category matches the sanitized name case-insensitively the handler
persists nothing and redirects to that record's detail URL; when none
matches it appends exactly one new record and redirects to its detail URL.
Consequently two consecutive creates whose sanitized names differ only in
case, starting from a store with no such name, leave exactly one stored
record with that case-insensitive name, and one record more in total. -/
theorem category_create_post_idempotent_by_name (st : Store)
    (n d n2 d2 : String)
    (hn : 1 ≤ (trimString n).length) (hd : 1 ≤ (trimString d).length)
    (hschema : schemaValid ⟨st.nextId, escapeString (trimString n),
        escapeString (trimString d)⟩ = true) :
    (∀ c, findCategoryByNameCI st (escapeString (trimString n)) = some c →
       category_create_post st n d =
         (st, [Response.redirect (categoryUrl c.id)]))
    ∧ (findCategoryByNameCI st (escapeString (trimString n)) = none →
       (category_create_post st n d).1.categories =
         st.categories ++ [⟨st.nextId, escapeString (trimString n),
           escapeString (trimString d)⟩]
       ∧ (category_create_post st n d).2 =
           [Response.redirect (categoryUrl st.nextId)])
    ∧ (findCategoryByNameCI st (escapeString (trimString n)) = none →
       1 ≤ (trimString n2).length → 1 ≤ (trimString d2).length →
       foldCase (escapeString (trimString n2)) =
         foldCase (escapeString (trimString n)) →
       ((category_create_post (category_create_post st n d).1 n2 d2).1.categories.filter
           (fun c => foldCase c.name ==
             foldCase (escapeString (trimString n)))).length = 1
       ∧ (category_create_post (category_create_post st n d).1 n2 d2).1.categories.length
           = st.categories.length + 1) := by
  refine ⟨fun c hc => category_create_post_valid_found st n d c hn hd hc,
    fun hnone => ?_, fun hnone hn2 hd2 hfold => ?_⟩
  · rw [category_create_post_valid_new st n d hn hd hnone hschema]
    exact ⟨rfl, rfl⟩
  · have hstep1 := category_create_post_valid_new st n d hn hd hnone hschema
    have hpred : ∀ x ∈ st.categories,
        ¬ (foldCase x.name ==
            foldCase (escapeString (trimString n))) = true :=
      List.find?_eq_none.mp hnone
    have hfound : findCategoryByNameCI (category_create_post st n d).1
        (escapeString (trimString n2)) =
        some ⟨st.nextId, escapeString (trimString n),
          escapeString (trimString d)⟩ := by
      rw [hstep1]
      dsimp only
      show (st.categories ++
          [(⟨st.nextId, escapeString (trimString n),
              escapeString (trimString d)⟩ : Category)]).find?
          (fun c => foldCase c.name ==
            foldCase (escapeString (trimString n2))) =
        some ⟨st.nextId, escapeString (trimString n),
          escapeString (trimString d)⟩
      rw [hfold]
      rw [find?_append_of_none _ _ _ hnone]
      exact List.find?_cons_of_pos _ (by simp)
    have hstep2 := category_create_post_valid_found _ n2 d2 _ hn2 hd2 hfound
    rw [hstep2]
    dsimp only
    rw [hstep1]
    dsimp only
    constructor
    · rw [List.filter_append, List.filter_eq_nil_iff.mpr hpred]
      simp
    · simp

/-- C1 (witness): creating "Widgets" then "widgets" in an empty store
leaves exactly one record whose folded name matches, and one record in
total. -/
theorem category_create_post_idempotent_by_name_witness :
    ((category_create_post
        (category_create_post ⟨[], [], 0⟩ "Widgets" "desc").1
        "widgets" "other").1.categories.filter
      (fun c => foldCase c.name ==
        foldCase (escapeString (trimString "Widgets")))).length = 1
    ∧ (category_create_post
        (category_create_post ⟨[], [], 0⟩ "Widgets" "desc").1
        "widgets" "other").1.categories.length = 0 + 1 := by
  have h := category_create_post_idempotent_by_name ⟨[], [], 0⟩
    "Widgets" "desc" "widgets" "other" (by decide) (by decide) (by decide)
  exact h.2.2 (by decide) (by decide) (by decide) (by decide)

end Inventory
